import Mathlib

/-!
Verification of the xcore sync engine (Go package `xcore`).

The Go sources are shallowly embedded: Go maps become association lists,
`*T` pointers that may be nil become `Option T`, panics become explicit
error results carried by `PRes`, and the long-poll `for` loop of
`Client.Sync` becomes a recursion over an oracle script of fetch results.
Machine integers (`uint32 syncingID`) are `Nat` with explicit `% 2^32`.
-/

set_option autoImplicit false

namespace xcore

/-- Association-list lookup: the Go map read `m[k]` (first binding wins). -/
def alookup {β : Type} : List (String × β) → String → Option β
  | [], _ => none
  | (k, v) :: rest, key => if k = key then some v else alookup rest key

/-- Association-list clobbering write: the Go map write `m[k] = v`. -/
def ainsert {β : Type} : List (String × β) → String → β → List (String × β)
  | [], key, v => [(key, v)]
  | (k, w) :: rest, key, v =>
    if k = key then (key, v) :: rest else (k, w) :: ainsert rest key v

/-- Association-list removal: the Go built-in `delete(m, k)`. -/
def aerase {β : Type} : List (String × β) → String → List (String × β)
  | [], _ => []
  | (k, w) :: rest, key =>
    if k = key then aerase rest key else (k, w) :: aerase rest key

theorem alookup_ainsert_self {β : Type} (l : List (String × β)) (k : String) (v : β) :
    alookup (ainsert l k v) k = some v := by
  induction l with
  | nil => simp [ainsert, alookup]
  | cons hd tl ih =>
    by_cases h : hd.1 = k
    · simp [ainsert, alookup, h]
    · simp [ainsert, alookup, h, ih]

theorem alookup_ainsert_ne {β : Type} (l : List (String × β)) (k k2 : String) (v : β)
    (h : k ≠ k2) : alookup (ainsert l k v) k2 = alookup l k2 := by
  induction l with
  | nil => simp [ainsert, alookup, h]
  | cons hd tl ih =>
    by_cases h2 : hd.1 = k
    · simp [ainsert, alookup, h2, h]
    · simp [ainsert, alookup, h2, ih]

theorem alookup_aerase {β : Type} (l : List (String × β)) (k k2 : String) :
    alookup (aerase l k) k2 = if k = k2 then none else alookup l k2 := by
  induction l with
  | nil => by_cases h : k = k2 <;> simp [aerase, alookup, h]
  | cons hd tl ih =>
    by_cases h2 : hd.1 = k
    · by_cases h : k = k2
      · simpa [aerase, alookup, h2, h] using ih
      · have : hd.1 ≠ k2 := by rw [h2]; exact h
        simp [aerase, alookup, h2, h, this, ih]
    · by_cases h3 : hd.1 = k2 <;> by_cases h : k = k2 <;>
        simp_all [aerase, alookup, h2, h3]

theorem alookup_mem {β : Type} {l : List (String × β)} {k : String} {v : β}
    (h : alookup l k = some v) : (k, v) ∈ l := by
  induction l with
  | nil => simp [alookup] at h
  | cons hd tl ih =>
    by_cases h2 : hd.1 = k
    · simp [alookup, h2] at h
      cases hd with
      | mk k1 v1 =>
        simp only at h2 h
        rw [h2, h]
        exact List.mem_cons_self _ _
    · simp [alookup, h2] at h
      right
      exact ih h

theorem not_mem_of_alookup_none {β : Type} {l : List (String × β)} {k : String}
    (h : alookup l k = none) : ∀ v : β, (k, v) ∉ l := by
  induction l with
  | nil => simp
  | cons hd tl ih =>
    by_cases h2 : hd.1 = k
    · simp [alookup, h2] at h
    · simp [alookup, h2] at h
      intro v hv
      rcases List.mem_cons.1 hv with h3 | h3
      · exact h2 (by rw [← h3])
      · exact ih h v h3

/-- A dynamically-typed JSON-ish content value (Go `interface\x7b\x7d`).  The
syncer only ever type-asserts values to `string`, so every non-string
shape is collapsed into `other`. -/
inductive CValue where
  | str (s : String)
  | other
deriving DecidableEq, Repr

/-- Modelled from the spec and from every use site in `client.go`,
`frame.go` and the syncer (the file declaring the Go `Event` struct is not
among the provided sources): a single protocol event with its string type
tag, optional state-key, sender, dynamically-typed content, and the frame
id attached during reconciliation. -/
structure Event where
  ID : String := ""
  Sender : String := ""
  «Type» : String := ""
  Timestamp : Nat := 0
  StateKey : Option String := none
  Content : List (String × CValue) := []
  FrameID : String := ""
deriving DecidableEq, Repr

/-- `Frame` (frame.go): per-frame state table, event type to state-key to
latest event. -/
structure Frame where
  ID : String
  State : List (String × List (String × Event))
deriving DecidableEq, Repr

/-- `NewFrame` (frame.go). -/
def NewFrame (frameID : String) : Frame :=
  { ID := frameID, State := [] }

/-- Go's runtime panic value for dereferencing a nil pointer, raised by
`Frame.UpdateState` when `event.StateKey` is nil. -/
def nilDerefMsg : String :=
  "runtime error: invalid memory address or nil pointer dereference"

/-- `Frame.UpdateState` (frame.go).  The Go code first ensures the inner
map for `event.Type` exists, then executes
`frame.State[event.Type][*event.StateKey] = event`, dereferencing the
state-key pointer unconditionally.  A nil state-key therefore panics
*after* the inner map was ensured: `.error` carries the frame as already
mutated through the pointer at the moment of the panic. -/
def Frame.UpdateState (frame : Frame) (event : Event) : Except Frame Frame :=
  let inner := (alookup frame.State event.«Type»).getD []
  let ensured : Frame := { frame with State := ainsert frame.State event.«Type» inner }
  match event.StateKey with
  | none => .error ensured
  | some key =>
    .ok { ensured with State := ainsert ensured.State event.«Type» (ainsert inner key event) }

/-- `Frame.GetStateEvent` (frame.go): `frame.State[eventType][stateKey]`,
nil maps reading as absent. -/
def Frame.GetStateEvent (frame : Frame) (eventType stateKey : String) : Option Event :=
  match alookup frame.State eventType with
  | none => none
  | some m => alookup m stateKey

/-- `Frame.GetMembershipState` (frame.go). -/
def Frame.GetMembershipState (frame : Frame) (userID : String) : String :=
  let state := "leave"
  match frame.GetStateEvent "m.frame.member" userID with
  | none => state
  | some event =>
    match alookup event.Content "membership" with
    | none => state
    | some v =>
      match v with
      | .str mState => mState
      | .other => state

/-- `InMemoryStore` (store.go): the provided `Storer` implementation,
three maps keyed by user id / frame id. -/
structure InMemoryStore where
  Filters : List (String × String) := []
  NextBatch : List (String × String) := []
  Frames : List (String × Frame) := []
deriving DecidableEq, Repr

/-- `InMemoryStore.SaveFilterID` (store.go). -/
def InMemoryStore.SaveFilterID (s : InMemoryStore) (userID filterID : String) : InMemoryStore :=
  { s with Filters := ainsert s.Filters userID filterID }

/-- `InMemoryStore.LoadFilterID` (store.go); a missing key reads as the Go
zero value `""`. -/
def InMemoryStore.LoadFilterID (s : InMemoryStore) (userID : String) : String :=
  (alookup s.Filters userID).getD ""

/-- `InMemoryStore.SaveNextBatch` (store.go). -/
def InMemoryStore.SaveNextBatch (s : InMemoryStore) (userID nextBatchToken : String) :
    InMemoryStore :=
  { s with NextBatch := ainsert s.NextBatch userID nextBatchToken }

/-- `InMemoryStore.LoadNextBatch` (store.go); a missing key reads as `""`. -/
def InMemoryStore.LoadNextBatch (s : InMemoryStore) (userID : String) : String :=
  (alookup s.NextBatch userID).getD ""

/-- `InMemoryStore.SaveFrame` (store.go): keyed by `frame.ID`. -/
def InMemoryStore.SaveFrame (s : InMemoryStore) (frame : Frame) : InMemoryStore :=
  { s with Frames := ainsert s.Frames frame.ID frame }

/-- `InMemoryStore.LoadFrame` (store.go): a nil `*Frame` is `none`. -/
def InMemoryStore.LoadFrame (s : InMemoryStore) (frameID : String) : Option Frame :=
  alookup s.Frames frameID

/-- The `uint32` modulus for the generation counter `Client.syncingID`. -/
def uint32Mod : Nat := 4294967296

/-- `Client.incrementSyncingID` (client.go): under the mutex, increment
the `uint32` counter and return the new value.  State and return value in
one pair; the increment wraps at 2^32 as the Go `uint32` does. -/
def incrementSyncingID (syncingID : Nat) : Nat × Nat :=
  let s := (syncingID + 1) % uint32Mod
  (s, s)

/-- `Client.getSyncingID` (client.go): read the live counter under the mutex. -/
def getSyncingID (syncingID : Nat) : Nat := syncingID

/-- `Client.StopSync` (client.go): advance the generation counter so any
running sync observes staleness. -/
def StopSync (syncingID : Nat) : Nat :=
  (incrementSyncingID syncingID).1

/-- The generation counter after `n` calls to `Client.Sync`/`Client.StopSync`
on a zero-initialised client (each such call performs exactly one
`incrementSyncingID`).  For `n ≥ 1` this is also the token issued to the
`n`-th call. -/
def syncingIDAfter : Nat → Nat
  | 0 => 0
  | n + 1 => (incrementSyncingID (syncingIDAfter n)).2

theorem syncingIDAfter_eq_mod (n : Nat) : syncingIDAfter n = n % uint32Mod := by
  induction n with
  | zero => rfl
  | succ k ih =>
    show (incrementSyncingID (syncingIDAfter k)).2 = (k + 1) % uint32Mod
    rw [incrementSyncingID, ih]
    show (k % uint32Mod + 1) % uint32Mod = (k + 1) % uint32Mod
    conv_lhs => rw [show (1 : Nat) = 1 % uint32Mod by rfl]
    rw [← Nat.add_mod]

/-- Go `error` values are opaque; their identity is all the sync engine
ever uses, so they are modelled as strings. -/
abbrev GoError := String

/-- `state` block of a sync response bucket. -/
structure StateData where
  Events : List Event := []
deriving DecidableEq, Repr

/-- `timeline` block of a sync response bucket. -/
structure TimelineData where
  Events : List Event := []
  Limited : Bool := false
  PrevBatch : String := ""
deriving DecidableEq, Repr

/-- `ephemeral` block of a joined bucket. -/
structure EphemeralData where
  Events : List Event := []
deriving DecidableEq, Repr

/-- One entry of `RespSync.Frames.Join` (store.go). -/
structure JoinData where
  State : StateData := {}
  Timeline : TimelineData := {}
  Ephemeral : EphemeralData := {}
deriving DecidableEq, Repr

/-- One entry of `RespSync.Frames.Invite` (store.go): the invite-state subset. -/
structure InviteData where
  State : StateData := {}
deriving DecidableEq, Repr

/-- One entry of `RespSync.Frames.Leave` (store.go). -/
structure LeaveData where
  State : StateData := {}
  Timeline : TimelineData := {}
deriving DecidableEq, Repr

/-- The three membership buckets of `RespSync.Frames` (store.go). -/
structure FramesData where
  Leave : List (String × LeaveData) := []
  Join : List (String × JoinData) := []
  Invite : List (String × InviteData) := []
deriving DecidableEq, Repr

/-- `RespSync` (store.go): one incremental update batch. -/
structure RespSync where
  NextBatch : String := ""
  AccountData : List Event := []
  Presence : List Event := []
  Frames : FramesData := {}
deriving DecidableEq, Repr

/-- `OnEventListener`: a subscriber callback.  A Go callback either
returns normally (`none`) or panics with some value (`some msg`). -/
def OnEventListener : Type := Event → Option String

/-- `DefaultSyncer` (syncer source): user id plus the listener registry.
Its `Store` field (the `Storer` collaborator) is threaded explicitly as
an `InMemoryStore` value through the processing functions. -/
structure DefaultSyncer where
  UserID : String
  listeners : List (String × List OnEventListener) := []

/-- `NewDefaultSyncer`. -/
def NewDefaultSyncer (userID : String) : DefaultSyncer :=
  { UserID := userID, listeners := [] }

/-- `DefaultSyncer.OnEventType`: append a callback, no dedup. -/
def DefaultSyncer.OnEventType (s : DefaultSyncer) (eventType : String)
    (callback : OnEventListener) : DefaultSyncer :=
  let existing := (alookup s.listeners eventType).getD []
  { s with listeners := ainsert s.listeners eventType (existing ++ [callback]) }

/-- Calls made on the `Storer` collaborator during one `ProcessResponse`
(the syncer only issues `LoadFrame` and `SaveFrame`; state-table writes go
through the loaded `*Frame` pointer, not through the store interface). -/
inductive StoreOp where
  | loadFrame (frameID : String)
  | saveFrame (frameID : String)
deriving DecidableEq, Repr

/-- The observable state threaded through `ProcessResponse`: the store
contents, the trace of events delivered to listener callbacks (one entry
per callback invocation), and the trace of `Storer` calls. -/
structure ProcState where
  store : InMemoryStore
  notified : List Event := []
  ops : List StoreOp := []
deriving DecidableEq, Repr

/-- Result of a processing step: either a normal result, or a Go panic
(value `msg`) unwinding past the step with the side effects `st`
performed so far still in place. -/
inductive PRes where
  | ok (st : ProcState)
  | panicked (st : ProcState) (msg : String)
deriving DecidableEq, Repr

/-- The state a `PRes` left behind (panicking steps keep their partial
side effects, exactly as Go mutations survive a recovered panic). -/
def PRes.state : PRes → ProcState
  | .ok st => st
  | .panicked st _ => st

/-- `DefaultSyncer.getOrCreateFrame`: `Store.LoadFrame`, creating and
saving a fresh frame when the store has none. -/
def DefaultSyncer.getOrCreateFrame (frameID : String) (st : ProcState) :
    Frame × ProcState :=
  match st.store.LoadFrame frameID with
  | some frame => (frame, { st with ops := st.ops ++ [.loadFrame frameID] })
  | none =>
    let frame := NewFrame frameID
    (frame, { st with store := st.store.SaveFrame frame,
                      ops := st.ops ++ [.loadFrame frameID, .saveFrame frameID] })

/-- Pointer semantics of the Go store: `getOrCreateFrame` hands out a
`*Frame` also held by the store's map, so a mutation of the frame is
immediately visible in the store without any `SaveFrame` call. -/
def syncFrame (st : ProcState) (frameID : String) (frame : Frame) : ProcState :=
  { st with store := { st.store with Frames := ainsert st.store.Frames frameID frame } }

/-- Inner loop of `DefaultSyncer.notifyListeners`: invoke each callback in
registration order; a panicking callback aborts the pass. -/
def runListeners (fns : List OnEventListener) (event : Event) (st : ProcState) : PRes :=
  match fns with
  | [] => .ok st
  | fn :: rest =>
    match fn event with
    | some msg => .panicked { st with notified := st.notified ++ [event] } msg
    | none => runListeners rest event { st with notified := st.notified ++ [event] }

/-- `DefaultSyncer.notifyListeners`: look up the listeners for the event
type; none registered is a no-op. -/
def DefaultSyncer.notifyListeners (s : DefaultSyncer) (event : Event) (st : ProcState) : PRes :=
  match alookup s.listeners event.«Type» with
  | none => .ok st
  | some fns => runListeners fns event st

/-- The Go `for _, event := range frameData.State.Events` loop shared by
the joined and invited buckets: attach the frame id, `UpdateState`
(which panics on a nil state-key), then notify. -/
def processStateEvents (s : DefaultSyncer) (frameID : String) :
    List Event → Frame → ProcState → PRes
  | [], _, st => .ok st
  | event :: rest, frame, st =>
    let ev := { event with FrameID := frameID }
    match frame.UpdateState ev with
    | .error frame1 => .panicked (syncFrame st frameID frame1) nilDerefMsg
    | .ok frame1 =>
      let st1 := syncFrame st frameID frame1
      match s.notifyListeners ev st1 with
      | .panicked st2 m => .panicked st2 m
      | .ok st2 => processStateEvents s frameID rest frame1 st2

/-- The Go loops over timeline and ephemeral events of a joined bucket:
attach the frame id and notify, no state update. -/
def notifyEach (s : DefaultSyncer) (frameID : String) :
    List Event → ProcState → PRes
  | [], st => .ok st
  | event :: rest, st =>
    let ev := { event with FrameID := frameID }
    match s.notifyListeners ev st with
    | .panicked st2 m => .panicked st2 m
    | .ok st2 => notifyEach s frameID rest st2

/-- The Go loop over a left bucket's timeline: events with a nil
state-key are skipped entirely; the rest update state and notify. -/
def processLeaveEvents (s : DefaultSyncer) (frameID : String) :
    List Event → Frame → ProcState → PRes
  | [], _, st => .ok st
  | event :: rest, frame, st =>
    if event.StateKey ≠ none then
      let ev := { event with FrameID := frameID }
      match frame.UpdateState ev with
      | .error frame1 => .panicked (syncFrame st frameID frame1) nilDerefMsg
      | .ok frame1 =>
        let st1 := syncFrame st frameID frame1
        match s.notifyListeners ev st1 with
        | .panicked st2 m => .panicked st2 m
        | .ok st2 => processLeaveEvents s frameID rest frame1 st2
    else
      processLeaveEvents s frameID rest frame st

/-- One joined-bucket entry of the main pass of `ProcessResponse`. -/
def processJoinFrame (s : DefaultSyncer) (frameID : String) (fd : JoinData)
    (st : ProcState) : PRes :=
  let g := DefaultSyncer.getOrCreateFrame frameID st
  match processStateEvents s frameID fd.State.Events g.1 g.2 with
  | .panicked st2 m => .panicked st2 m
  | .ok st2 =>
    match notifyEach s frameID fd.Timeline.Events st2 with
    | .panicked st3 m => .panicked st3 m
    | .ok st3 => notifyEach s frameID fd.Ephemeral.Events st3

/-- One invited-bucket entry of the main pass. -/
def processInviteFrame (s : DefaultSyncer) (frameID : String) (fd : InviteData)
    (st : ProcState) : PRes :=
  let g := DefaultSyncer.getOrCreateFrame frameID st
  processStateEvents s frameID fd.State.Events g.1 g.2

/-- One left-bucket entry of the main pass. -/
def processLeaveFrame (s : DefaultSyncer) (frameID : String) (fd : LeaveData)
    (st : ProcState) : PRes :=
  let g := DefaultSyncer.getOrCreateFrame frameID st
  processLeaveEvents s frameID fd.Timeline.Events g.1 g.2

/-- The `range res.Frames.Join` loop. -/
def processJoinFrames (s : DefaultSyncer) :
    List (String × JoinData) → ProcState → PRes
  | [], st => .ok st
  | (frameID, fd) :: rest, st =>
    match processJoinFrame s frameID fd st with
    | .panicked st1 m => .panicked st1 m
    | .ok st1 => processJoinFrames s rest st1

/-- The `range res.Frames.Invite` loop. -/
def processInviteFrames (s : DefaultSyncer) :
    List (String × InviteData) → ProcState → PRes
  | [], st => .ok st
  | (frameID, fd) :: rest, st =>
    match processInviteFrame s frameID fd st with
    | .panicked st1 m => .panicked st1 m
    | .ok st1 => processInviteFrames s rest st1

/-- The `range res.Frames.Leave` loop. -/
def processLeaveFrames (s : DefaultSyncer) :
    List (String × LeaveData) → ProcState → PRes
  | [], st => .ok st
  | (frameID, fd) :: rest, st =>
    match processLeaveFrame s frameID fd st with
    | .panicked st1 m => .panicked st1 m
    | .ok st1 => processLeaveFrames s rest st1

/-- The body of `DefaultSyncer.ProcessResponse` guarded by the
deferred `recover`: joined, then invited, then left buckets. -/
def mainPass (s : DefaultSyncer) (res : RespSync) (st : ProcState) : PRes :=
  match processJoinFrames s res.Frames.Join st with
  | .panicked st1 m => .panicked st1 m
  | .ok st1 =>
    match processInviteFrames s res.Frames.Invite st1 with
    | .panicked st2 m => .panicked st2 m
    | .ok st2 => processLeaveFrames s res.Frames.Leave st2

/-- The reverse scan of one joined frame's timeline inside
`shouldProcessResponse` (argument list is the timeline already reversed,
so the head is the most recent event): look for an `m.frame.member` event
for the syncing user whose membership content is the string `"join"`;
a non-string membership, or any other membership value, keeps scanning. -/
def scanForJoin (userID : String) : List Event → Bool
  | [] => false
  | e :: rest =>
    if e.«Type» = "m.frame.member" ∧ e.StateKey = some userID then
      match alookup e.Content "membership" with
      | some (.str mship) => if mship = "join" then true else scanForJoin userID rest
      | _ => scanForJoin userID rest
    else scanForJoin userID rest

/-- The `for i := len(...) - 1; i >= 0; i--` timeline scan on a joined
frame's timeline, in source order. -/
def checkJoinTimeline (userID : String) (events : List Event) : Bool :=
  scanForJoin userID events.reverse

/-- One iteration of the suppression loop of `shouldProcessResponse`: a
frame whose timeline scan found a join for the syncing user is deleted
from both the joined and the invited buckets (the redundant `ok` re-check
of the Go code included). -/
def suppressStep (userID : String) (frames : FramesData) (entry : String × JoinData) :
    FramesData :=
  if checkJoinTimeline userID entry.2.Timeline.Events then
    match alookup frames.Join entry.1 with
    | none => frames
    | some _ =>
      { frames with Join := aerase frames.Join entry.1,
                    Invite := aerase frames.Invite entry.1 }
  else frames

/-- `DefaultSyncer.shouldProcessResponse`: reject the initial sync
(`since == ""`) outright, otherwise run the join-race suppression over
every joined-bucket entry and return the (possibly pruned) response. -/
def DefaultSyncer.shouldProcessResponse (s : DefaultSyncer) (resp : RespSync)
    (since : String) : Bool × RespSync :=
  if since = "" then (false, resp)
  else
    let frames := resp.Frames.Join.foldl (suppressStep s.UserID) resp.Frames
    (true, { resp with Frames := frames })

/-- The reconciliation error built by the deferred `recover` of
`ProcessResponse` (the `debug.Stack()` suffix of the Go message is not
observable in this model and is omitted). -/
def panicMsg (userID since msg : String) : String :=
  "ProcessResponse panicked! userID=" ++ userID ++ " since=" ++ since ++ " panic=" ++ msg

/-- What one call to `DefaultSyncer.ProcessResponse` did: the store as
left behind, the listener-delivery trace, the `Storer` call trace, and
the returned error. -/
structure ProcessResult where
  store : InMemoryStore
  notified : List Event
  ops : List StoreOp
  err : Option GoError
deriving DecidableEq, Repr

/-- `DefaultSyncer.ProcessResponse`: skip via `shouldProcessResponse`,
then run the main pass with any panic recovered into a single
descriptive error. -/
def DefaultSyncer.ProcessResponse (s : DefaultSyncer) (res : RespSync) (since : String)
    (store : InMemoryStore) : ProcessResult :=
  let sp := s.shouldProcessResponse res since
  if sp.1 then
    match mainPass s sp.2 { store := store } with
    | .ok st => ⟨st.store, st.notified, st.ops, none⟩
    | .panicked st m => ⟨st.store, st.notified, st.ops, some (panicMsg s.UserID since m)⟩
  else ⟨store, [], [], none⟩

/-- One Go second in `time.Duration` nanoseconds. -/
def second : Nat := 1000000000

/-- `DefaultSyncer.OnFailedSync`: always a 10 second wait, never fatal. -/
def DefaultSyncer.OnFailedSync (_s : DefaultSyncer) (_res : Option RespSync)
    (_e : GoError) : Nat × Option GoError :=
  (10 * second, none)

/-- Outcome of one `cli.SyncRequest` long-poll fetch: the `(resp, err)`
pair of the Go call (on failure the possibly-nil response is still handed
to the failure policy). -/
inductive FetchResult where
  | success (resp : RespSync)
  | failure (resp : Option RespSync) (e : GoError)

/-- Observable actions of the `Client.Sync` loop, in program order. -/
inductive TraceEv where
  | fetchReq (since : String)
  | sleep (d : Nat)
  | saveNextBatch (userID token : String)
  | processResponse (resp : RespSync) (since : String)
deriving DecidableEq, Repr

/-- How a run of the `Client.Sync` loop ended. -/
inductive SyncOutcome where
  | returnedNil
  | returnedErr (e : GoError)
  | scriptEnded (nextBatch : String)
deriving DecidableEq, Repr

/-- A run of the `Client.Sync` loop: its return value, the store it left
behind, and what it did. -/
structure SyncResult where
  outcome : SyncOutcome
  store : InMemoryStore
  trace : List TraceEv
deriving DecidableEq, Repr

/-- The `Syncer` interface as consumed by the `Client.Sync` loop
(`GetFilterJSON` is only used before the loop starts and is omitted).
`ProcessResponse` is given the store and returns the store it left behind
plus its error. -/
structure SyncerModel where
  ProcessResponse : RespSync → String → InMemoryStore → InMemoryStore × Option GoError
  OnFailedSync : Option RespSync → GoError → Nat × Option GoError

/-- The `for` loop of `Client.Sync` (client.go).  The environment is an
oracle script: one entry per fetch the loop would issue, carrying the
fetch's outcome together with the value the mutex-guarded
`cli.getSyncingID()` read would return at that iteration's staleness
check.  `syncingID` is the generation token this loop captured from
`incrementSyncingID` at start.  An exhausted script ends the run with
`scriptEnded` (the real loop would keep polling). -/
def Sync (syncer : SyncerModel) (userID : String) (syncingID : Nat)
    (store : InMemoryStore) (nextBatch : String) :
    List (FetchResult × Nat) → SyncResult
  | [] => ⟨.scriptEnded nextBatch, store, []⟩
  | (fetch, liveID) :: script =>
    match fetch with
    | .failure resp e =>
      let p := syncer.OnFailedSync resp e
      match p.2 with
      | some e2 => ⟨.returnedErr e2, store, [.fetchReq nextBatch]⟩
      | none =>
        let r := Sync syncer userID syncingID store nextBatch script
        ⟨r.outcome, r.store, .fetchReq nextBatch :: .sleep p.1 :: r.trace⟩
    | .success resp =>
      if getSyncingID liveID ≠ syncingID then
        ⟨.returnedNil, store, [.fetchReq nextBatch]⟩
      else
        let store1 := store.SaveNextBatch userID resp.NextBatch
        let q := syncer.ProcessResponse resp nextBatch store1
        match q.2 with
        | some e =>
          ⟨.returnedErr e, q.1,
            [.fetchReq nextBatch, .saveNextBatch userID resp.NextBatch,
             .processResponse resp nextBatch]⟩
        | none =>
          let r := Sync syncer userID syncingID q.1 resp.NextBatch script
          ⟨r.outcome, r.store,
            .fetchReq nextBatch :: .saveNextBatch userID resp.NextBatch ::
              .processResponse resp nextBatch :: r.trace⟩

/-- The `SyncerModel` induced by a `DefaultSyncer` (its listener-delivery
and `Storer`-call traces are not visible to the loop). -/
def DefaultSyncer.toModel (s : DefaultSyncer) : SyncerModel where
  ProcessResponse := fun resp since store =>
    let r := s.ProcessResponse resp since store
    (r.store, r.err)
  OnFailedSync := fun res e => s.OnFailedSync res e

/-! Concrete instances used by the witnesses below. -/

/-- A syncer-interface instance whose reconciliation always succeeds and
whose failure policy asks for a 5 (model-unit) backoff. -/
def exSyncerModelOk : SyncerModel :=
  ⟨fun _ _ st => (st, none), fun _ _ => (5, none)⟩

/-- A syncer-interface instance whose reconciliation always fails with
`"boom"` (leaving the store as handed to it) and whose failure policy is
always fatal with `"fatal"`. -/
def exSyncerModelErr : SyncerModel :=
  ⟨fun _ _ st => (st, some "boom"), fun _ _ => (7, some "fatal")⟩

/-- C1: after a successful fetch, a sync loop whose captured generation
token no longer equals the live one returns a nil error immediately: no
`SaveNextBatch`, no `ProcessResponse`, store untouched, remaining script
unconsumed. -/
theorem sync_stale_generation_returns_nil (syncer : SyncerModel) (userID : String)
    (syncingID liveID : Nat) (store : InMemoryStore) (nextBatch : String)
    (resp : RespSync) (script : List (FetchResult × Nat))
    (h : getSyncingID liveID ≠ syncingID) :
    Sync syncer userID syncingID store nextBatch ((.success resp, liveID) :: script) =
      ⟨.returnedNil, store, [.fetchReq nextBatch]⟩ := by
  simp [Sync, h]

theorem sync_stale_generation_returns_nil_witness :
    getSyncingID 2 ≠ 1 ∧
    Sync exSyncerModelOk "@bot:x" 1 {} "tok" [(.success {}, 2)] =
      ⟨.returnedNil, {}, [.fetchReq "tok"]⟩ :=
  ⟨by decide,
   sync_stale_generation_returns_nil exSyncerModelOk "@bot:x" 1 2 {} "tok" {} [] (by decide)⟩

/-- C3: with the empty since position, `ProcessResponse` returns a nil
error having mutated nothing: the store is unchanged, no `Storer` call
was made and no listener was notified, whatever the batch contains. -/
theorem processResponse_initial_sync_skip (s : DefaultSyncer) (res : RespSync)
    (store : InMemoryStore) :
    s.ProcessResponse res "" store = ⟨store, [], [], none⟩ := rfl

/-- C4: on a successful, non-stale fetch the loop calls `SaveNextBatch`
with the response's new position strictly before invoking
`ProcessResponse` (the store handed to `ProcessResponse` already holds
it); hence when `ProcessResponse` fails — without having rewritten the
next-batch map itself, as `DefaultSyncer` never does — `Sync` returns
exactly that error while the persisted position is already the new one. -/
theorem saveNextBatch_before_processResponse (syncer : SyncerModel) (userID : String)
    (syncingID : Nat) (store : InMemoryStore) (nextBatch : String)
    (resp : RespSync) (script : List (FetchResult × Nat)) :
    (Sync syncer userID syncingID store nextBatch
        ((.success resp, syncingID) :: script)).trace.take 3 =
      [.fetchReq nextBatch, .saveNextBatch userID resp.NextBatch,
       .processResponse resp nextBatch] ∧
    (store.SaveNextBatch userID resp.NextBatch).LoadNextBatch userID = resp.NextBatch ∧
    (∀ st2 e,
      syncer.ProcessResponse resp nextBatch (store.SaveNextBatch userID resp.NextBatch) =
        (st2, some e) →
      st2.NextBatch = (store.SaveNextBatch userID resp.NextBatch).NextBatch →
      Sync syncer userID syncingID store nextBatch ((.success resp, syncingID) :: script) =
        ⟨.returnedErr e, st2,
         [.fetchReq nextBatch, .saveNextBatch userID resp.NextBatch,
          .processResponse resp nextBatch]⟩ ∧
      st2.LoadNextBatch userID = resp.NextBatch) := by
  refine ⟨?_, ?_, ?_⟩
  · cases hq : (syncer.ProcessResponse resp nextBatch
      (store.SaveNextBatch userID resp.NextBatch)).2 with
    | none => simp [Sync, hq, getSyncingID, List.take_succ_cons]
    | some e => simp [Sync, hq, getSyncingID, List.take_succ_cons]
  · simp [InMemoryStore.SaveNextBatch, InMemoryStore.LoadNextBatch, alookup_ainsert_self]
  · intro st2 e h1 h2
    constructor
    · simp [Sync, h1, getSyncingID]
    · simp [InMemoryStore.LoadNextBatch, h2, InMemoryStore.SaveNextBatch,
        alookup_ainsert_self]

theorem saveNextBatch_before_processResponse_witness :
    exSyncerModelErr.ProcessResponse { NextBatch := "nb2" } "nb1"
        (InMemoryStore.SaveNextBatch {} "@bot:x" "nb2") =
      (InMemoryStore.SaveNextBatch {} "@bot:x" "nb2", some "boom") ∧
    Sync exSyncerModelErr "@bot:x" 4 {} "nb1" [(.success { NextBatch := "nb2" }, 4)] =
      ⟨.returnedErr "boom", InMemoryStore.SaveNextBatch {} "@bot:x" "nb2",
       [.fetchReq "nb1", .saveNextBatch "@bot:x" "nb2",
        .processResponse { NextBatch := "nb2" } "nb1"]⟩ ∧
    (InMemoryStore.SaveNextBatch {} "@bot:x" "nb2").LoadNextBatch "@bot:x" = "nb2" :=
  ⟨rfl,
   ((saveNextBatch_before_processResponse exSyncerModelErr "@bot:x" 4 {} "nb1"
      { NextBatch := "nb2" } []).2.2 (InMemoryStore.SaveNextBatch {} "@bot:x" "nb2")
      "boom" rfl rfl).1,
   ((saveNextBatch_before_processResponse exSyncerModelErr "@bot:x" 4 {} "nb1"
      { NextBatch := "nb2" } []).2.2 (InMemoryStore.SaveNextBatch {} "@bot:x" "nb2")
      "boom" rfl rfl).2⟩

/-- C5: on a fetch failure, a failure policy answering `(d, nil)` makes
the loop sleep `d` and retry the fetch with the same stream position and
the same store (no persistence write); a policy answering a non-nil error
makes `Sync` return exactly that error without a further fetch. -/
theorem onFailedSync_backoff_or_fatal (syncer : SyncerModel) (userID : String)
    (syncingID liveID : Nat) (store : InMemoryStore) (nextBatch : String)
    (resp : Option RespSync) (e : GoError) (script : List (FetchResult × Nat)) :
    (∀ d, syncer.OnFailedSync resp e = (d, none) →
      Sync syncer userID syncingID store nextBatch ((.failure resp e, liveID) :: script) =
        ⟨(Sync syncer userID syncingID store nextBatch script).outcome,
         (Sync syncer userID syncingID store nextBatch script).store,
         .fetchReq nextBatch :: .sleep d ::
           (Sync syncer userID syncingID store nextBatch script).trace⟩) ∧
    (∀ d e2, syncer.OnFailedSync resp e = (d, some e2) →
      Sync syncer userID syncingID store nextBatch ((.failure resp e, liveID) :: script) =
        ⟨.returnedErr e2, store, [.fetchReq nextBatch]⟩) := by
  constructor
  · intro d h
    simp [Sync, h]
  · intro d e2 h
    simp [Sync, h]

theorem onFailedSync_backoff_or_fatal_witness :
    exSyncerModelOk.OnFailedSync none "timeout" = (5, none) ∧
    Sync exSyncerModelOk "@bot:x" 1 {} "tok" [(.failure none "timeout", 1)] =
      ⟨.scriptEnded "tok", {}, [.fetchReq "tok", .sleep 5]⟩ ∧
    exSyncerModelErr.OnFailedSync none "timeout" = (7, some "fatal") ∧
    Sync exSyncerModelErr "@bot:x" 1 {} "tok" [(.failure none "timeout", 1)] =
      ⟨.returnedErr "fatal", {}, [.fetchReq "tok"]⟩ :=
  ⟨rfl,
   (onFailedSync_backoff_or_fatal exSyncerModelOk "@bot:x" 1 1 {} "tok" none "timeout" []).1
     5 rfl,
   rfl,
   (onFailedSync_backoff_or_fatal exSyncerModelErr "@bot:x" 1 1 {} "tok" none "timeout" []).2
     7 "fatal" rfl⟩

/-- C8: when a frame's state table has no `m.frame.member` entry keyed by
the user — or the entry's membership content is absent or not a string —
`GetMembershipState` returns the left sentinel `"leave"`. -/
theorem getMembershipState_default_leave (frame : Frame) (userID : String)
    (h : frame.GetStateEvent "m.frame.member" userID = none ∨
      ∃ e, frame.GetStateEvent "m.frame.member" userID = some e ∧
        (alookup e.Content "membership" = none ∨
         ∃ v, alookup e.Content "membership" = some v ∧ ∀ ms, v ≠ CValue.str ms)) :
    frame.GetMembershipState userID = "leave" := by
  unfold Frame.GetMembershipState
  rcases h with h | ⟨e, he, h⟩
  · rw [h]
  · rw [he]
    show (match alookup e.Content "membership" with
          | none => "leave"
          | some v =>
            match v with
            | CValue.str mState => mState
            | CValue.other => "leave") = "leave"
    rcases h with h | ⟨v, hv, hns⟩
    · rw [h]
    · rw [hv]
      cases v with
      | str ms => exact absurd rfl (hns ms)
      | other => rfl

theorem getMembershipState_default_leave_witness :
    (NewFrame "!f:x").GetStateEvent "m.frame.member" "@bot:x" = none ∧
    (NewFrame "!f:x").GetMembershipState "@bot:x" = "leave" :=
  ⟨rfl, getMembershipState_default_leave (NewFrame "!f:x") "@bot:x" (Or.inl rfl)⟩

/-- C9 counterexample: the generation counter is a `uint32` and wraps.
Starting from a fresh client, the token issued by the 1st call is 1, but
the token issued by call number 2^32 is 0 — not strictly greater than the
earlier one, refuting "each newly issued token is strictly greater than
every previously issued token" for that concrete call sequence. -/
theorem syncingID_wraps_at_uint32 :
    syncingIDAfter 1 = 1 ∧ syncingIDAfter uint32Mod = 0 ∧
    ¬ syncingIDAfter 1 < syncingIDAfter uint32Mod := by
  have h1 : syncingIDAfter 1 = 1 := by
    rw [syncingIDAfter_eq_mod]
    decide
  have h2 : syncingIDAfter uint32Mod = 0 := by
    rw [syncingIDAfter_eq_mod]
    exact Nat.mod_self _
  refine ⟨h1, h2, ?_⟩
  rw [h1, h2]
  decide

/-- C9 as amended: each newly issued generation token is strictly greater
than every previously issued one *provided fewer than 2^32 increments
have happened* — the `uint32` counter wraps after that. -/
theorem syncingID_strictly_monotone_below_wrap (i j : Nat)
    (hij : i < j) (hj : j < uint32Mod) :
    syncingIDAfter i < syncingIDAfter j := by
  rw [syncingIDAfter_eq_mod, syncingIDAfter_eq_mod,
    Nat.mod_eq_of_lt (lt_trans hij hj), Nat.mod_eq_of_lt hj]
  exact hij

theorem syncingID_strictly_monotone_below_wrap_witness :
    1 < 2 ∧ 2 < uint32Mod ∧ syncingIDAfter 1 < syncingIDAfter 2 :=
  ⟨by decide, by decide,
   syncingID_strictly_monotone_below_wrap 1 2 (by decide) (by decide)⟩

/-- C6: any panic raised during the main reconciliation pass of a batch
that passed the should-process check — listener-callback panics included —
is recovered and surfaced as the single error value returned by
`ProcessResponse` (no panic escapes: the model of `ProcessResponse` is a
total function), and that error's message contains both the user ID and
the since position. -/
theorem processResponse_recovers_panic (s : DefaultSyncer) (res : RespSync) (since : String)
    (store : InMemoryStore) (st : ProcState) (m : String)
    (hsince : since ≠ "")
    (h : mainPass s (s.shouldProcessResponse res since).2 { store := store } =
      .panicked st m) :
    s.ProcessResponse res since store =
      ⟨st.store, st.notified, st.ops, some (panicMsg s.UserID since m)⟩ ∧
    (∃ a b, panicMsg s.UserID since m = a ++ s.UserID ++ b) ∧
    (∃ a b, panicMsg s.UserID since m = a ++ since ++ b) := by
  refine ⟨?_, ?_, ?_⟩
  · have h1 : (s.shouldProcessResponse res since).1 = true := by
      unfold DefaultSyncer.shouldProcessResponse
      rw [if_neg hsince]
    simp only [DefaultSyncer.ProcessResponse, h1, if_true]
    rw [h]
  · refine ⟨"ProcessResponse panicked! userID=",
      " since=" ++ since ++ " panic=" ++ m, ?_⟩
    simp [panicMsg, String.append_assoc]
  · refine ⟨"ProcessResponse panicked! userID=" ++ s.UserID ++ " since=",
      " panic=" ++ m, ?_⟩
    simp [panicMsg, String.append_assoc]

/-- A syncer with one subscriber on `"m.t"` whose callback panics with
`"boom"` — exercising the panic-recovery path. -/
def panickySyncer : DefaultSyncer :=
  { UserID := "@bot:x", listeners := [("m.t", [fun _ => some "boom"])] }

/-- A batch delivering one `"m.t"` timeline event in one joined frame. -/
def oneTimelineResp : RespSync :=
  { NextBatch := "nb2",
    Frames := { Join := [("!f:x", { Timeline := { Events := [{ «Type» := "m.t" }] } })] } }

theorem processResponse_recovers_panic_witness :
    "s1" ≠ "" ∧
    mainPass panickySyncer (panickySyncer.shouldProcessResponse oneTimelineResp "s1").2
        { store := {} } =
      .panicked
        { store := { Frames := [("!f:x", { ID := "!f:x", State := [] })] },
          notified := [{ «Type» := "m.t", FrameID := "!f:x" }],
          ops := [.loadFrame "!f:x", .saveFrame "!f:x"] } "boom" ∧
    panickySyncer.ProcessResponse oneTimelineResp "s1" {} =
      ⟨{ Frames := [("!f:x", { ID := "!f:x", State := [] })] },
       [{ «Type» := "m.t", FrameID := "!f:x" }],
       [.loadFrame "!f:x", .saveFrame "!f:x"],
       some (panicMsg "@bot:x" "s1" "boom")⟩ ∧
    (∃ a b, panicMsg "@bot:x" "s1" "boom" = a ++ "@bot:x" ++ b) :=
  have h := processResponse_recovers_panic panickySyncer oneTimelineResp "s1" {}
    { store := { Frames := [("!f:x", { ID := "!f:x", State := [] })] },
      notified := [{ «Type» := "m.t", FrameID := "!f:x" }],
      ops := [.loadFrame "!f:x", .saveFrame "!f:x"] } "boom" (by decide) rfl
  ⟨by decide, rfl, h.1, h.2.1⟩

/-- A batch whose joined bucket carries a single frame with a single
state event (used to drive single-event executions of `ProcessResponse`). -/
def singleJoinResp (nb frameID : String) (event : Event) : RespSync :=
  { NextBatch := nb,
    Frames := { Join := [(frameID, { State := { Events := [event] } })] } }

/-- C10: a state event with a null state-key in a joined (or invited)
bucket is not skipped: the shared state-event loop hands it straight to
`UpdateState`, whose unconditional state-key dereference faults — and at
the top level the fault surfaces only through the panic-recovery path of
`ProcessResponse`, as an error wrapping the nil-dereference panic. -/
theorem null_statekey_reaches_nil_deref (s : DefaultSyncer) (frameID : String)
    (event : Event) (rest : List Event) (frame : Frame) (st : ProcState)
    (nb since : String) (store : InMemoryStore)
    (hkey : event.StateKey = none) (hsince : since ≠ "") :
    (∃ f1, frame.UpdateState { event with FrameID := frameID } = .error f1) ∧
    (∃ st1, processStateEvents s frameID (event :: rest) frame st =
      .panicked st1 nilDerefMsg) ∧
    (s.ProcessResponse (singleJoinResp nb frameID event) since store).err =
      some (panicMsg s.UserID since nilDerefMsg) := by
  refine ⟨⟨{ frame with State := (ainsert frame.State event.«Type»
      ((alookup frame.State event.«Type»).getD [])) }, ?_⟩,
    ⟨syncFrame st frameID { frame with State := (ainsert frame.State event.«Type»
      ((alookup frame.State event.«Type»).getD [])) }, ?_⟩, ?_⟩
  · simp [Frame.UpdateState, hkey]
  · simp [processStateEvents, Frame.UpdateState, hkey]
  · have h1 : s.shouldProcessResponse (singleJoinResp nb frameID event) since =
        (true, singleJoinResp nb frameID event) := by
      unfold DefaultSyncer.shouldProcessResponse
      rw [if_neg hsince]
      simp [singleJoinResp, suppressStep, checkJoinTimeline, scanForJoin]
    simp only [DefaultSyncer.ProcessResponse, h1, if_true]
    cases hload : store.LoadFrame frameID with
    | none =>
      simp [singleJoinResp, mainPass, processJoinFrames, processJoinFrame,
        processStateEvents, DefaultSyncer.getOrCreateFrame, Frame.UpdateState,
        hload, hkey]
    | some fr =>
      simp [singleJoinResp, mainPass, processJoinFrames, processJoinFrame,
        processStateEvents, DefaultSyncer.getOrCreateFrame, Frame.UpdateState,
        hload, hkey]

theorem null_statekey_reaches_nil_deref_witness :
    ({ «Type» := "m.x", StateKey := none } : Event).StateKey = none ∧
    "s1" ≠ "" ∧
    (∃ f1, (NewFrame "!f:x").UpdateState
      { «Type» := "m.x", StateKey := none, FrameID := "!f:x" } = .error f1) ∧
    ((NewDefaultSyncer "@bot:x").ProcessResponse
        (singleJoinResp "nb2" "!f:x" { «Type» := "m.x", StateKey := none })
        "s1" {}).err = some (panicMsg "@bot:x" "s1" nilDerefMsg) := by
  have h := null_statekey_reaches_nil_deref (NewDefaultSyncer "@bot:x") "!f:x"
    { «Type» := "m.x", StateKey := none } [] (NewFrame "!f:x")
    { store := {} } "nb2" "s1" {} rfl (by decide)
  exact ⟨rfl, by decide, h.1, h.2.2⟩

/-- C7: in a left bucket's timeline, an event with a null state-key is
skipped outright (no state update, no notification — processing it equals
processing the remaining events); an event with a non-null state-key is
clobber-written into the frame's state table (becoming the current entry
for its type and key) and then dispatched through `notifyListeners`. -/
theorem leave_timeline_statekey_filter (s : DefaultSyncer) (frameID : String)
    (event : Event) (rest : List Event) (frame : Frame) (st : ProcState) :
    (event.StateKey = none →
      processLeaveEvents s frameID (event :: rest) frame st =
        processLeaveEvents s frameID rest frame st) ∧
    (∀ k, event.StateKey = some k →
      ∃ frame1,
        frame.UpdateState { event with FrameID := frameID } = .ok frame1 ∧
        frame1.GetStateEvent event.«Type» k = some { event with FrameID := frameID } ∧
        processLeaveEvents s frameID (event :: rest) frame st =
          (match s.notifyListeners { event with FrameID := frameID }
              (syncFrame st frameID frame1) with
           | .panicked st2 m => .panicked st2 m
           | .ok st2 => processLeaveEvents s frameID rest frame1 st2)) := by
  constructor
  · intro hnone
    simp [processLeaveEvents, hnone]
  · intro k hk
    refine ⟨{ frame with State := (ainsert (ainsert frame.State event.«Type»
        ((alookup frame.State event.«Type»).getD [])) event.«Type»
        (ainsert ((alookup frame.State event.«Type»).getD []) k
          { event with FrameID := frameID })) }, ?_, ?_, ?_⟩
    · simp [Frame.UpdateState, hk]
    · simp [Frame.GetStateEvent, alookup_ainsert_self]
    · simp [processLeaveEvents, Frame.UpdateState, hk]

theorem leave_timeline_statekey_filter_witness :
    ({ «Type» := "m.msg" } : Event).StateKey = none ∧
    processLeaveEvents (NewDefaultSyncer "@bot:x") "!f:x"
        [{ «Type» := "m.msg" }] (NewFrame "!f:x") { store := {} } =
      processLeaveEvents (NewDefaultSyncer "@bot:x") "!f:x" [] (NewFrame "!f:x")
        { store := {} } ∧
    ({ «Type» := "m.frame.member", StateKey := some "@a:x" } : Event).StateKey =
      some "@a:x" ∧
    (∃ frame1,
      (NewFrame "!f:x").UpdateState
        { «Type» := "m.frame.member", StateKey := some "@a:x", FrameID := "!f:x" } =
          .ok frame1 ∧
      frame1.GetStateEvent "m.frame.member" "@a:x" =
        some { «Type» := "m.frame.member", StateKey := some "@a:x", FrameID := "!f:x" } ∧
      processLeaveEvents (NewDefaultSyncer "@bot:x") "!f:x"
          [{ «Type» := "m.frame.member", StateKey := some "@a:x" }] (NewFrame "!f:x")
          { store := {} } =
        (match (NewDefaultSyncer "@bot:x").notifyListeners
            { «Type» := "m.frame.member", StateKey := some "@a:x", FrameID := "!f:x" }
            (syncFrame { store := {} } "!f:x" frame1) with
         | .panicked st2 m => .panicked st2 m
         | .ok st2 => processLeaveEvents (NewDefaultSyncer "@bot:x") "!f:x" [] frame1 st2)) :=
  ⟨rfl,
   (leave_timeline_statekey_filter (NewDefaultSyncer "@bot:x") "!f:x"
     { «Type» := "m.msg" } [] (NewFrame "!f:x") { store := {} }).1 rfl,
   rfl,
   (leave_timeline_statekey_filter (NewDefaultSyncer "@bot:x") "!f:x"
     { «Type» := "m.frame.member", StateKey := some "@a:x" } [] (NewFrame "!f:x")
     { store := {} }).2 "@a:x" rfl⟩

/-- The most recent timeline event that is a membership-state event about
the given user: first match of the reverse scan (pass the timeline
already reversed, as `checkJoinTimeline` does). -/
def findMostRecentMember (userID : String) : List Event → Option Event
  | [] => none
  | e :: rest =>
    if e.«Type» = "m.frame.member" ∧ e.StateKey = some userID then some e
    else findMostRecentMember userID rest

theorem scanForJoin_of_find (userID : String) (l : List Event) (e : Event)
    (hf : findMostRecentMember userID l = some e)
    (hm : alookup e.Content "membership" = some (.str "join")) :
    scanForJoin userID l = true := by
  induction l with
  | nil => simp [findMostRecentMember] at hf
  | cons hd tl ih =>
    by_cases hc : hd.«Type» = "m.frame.member" ∧ hd.StateKey = some userID
    · simp [findMostRecentMember, hc] at hf
      subst hf
      simp [scanForJoin, hc, hm]
    · simp [findMostRecentMember, hc] at hf
      simp only [scanForJoin, if_neg hc]
      exact ih hf

theorem suppressStep_leave (userID : String) (fs : FramesData)
    (entry : String × JoinData) :
    (suppressStep userID fs entry).Leave = fs.Leave := by
  unfold suppressStep
  split
  · split <;> rfl
  · rfl

theorem suppress_foldl_leave (userID : String) (entries : List (String × JoinData))
    (fs : FramesData) :
    (entries.foldl (suppressStep userID) fs).Leave = fs.Leave := by
  induction entries generalizing fs with
  | nil => rfl
  | cons hd tl ih =>
    rw [List.foldl_cons, ih, suppressStep_leave]

theorem suppressStep_none (userID frameID : String) (fs : FramesData)
    (entry : String × JoinData)
    (hJ : alookup fs.Join frameID = none) (hI : alookup fs.Invite frameID = none) :
    alookup (suppressStep userID fs entry).Join frameID = none ∧
    alookup (suppressStep userID fs entry).Invite frameID = none := by
  unfold suppressStep
  split
  · split
    · exact ⟨hJ, hI⟩
    · constructor
      · show alookup (aerase fs.Join entry.1) frameID = none
        rw [alookup_aerase]
        by_cases h : entry.1 = frameID <;> simp [h, hJ]
      · show alookup (aerase fs.Invite entry.1) frameID = none
        rw [alookup_aerase]
        by_cases h : entry.1 = frameID <;> simp [h, hI]
  · exact ⟨hJ, hI⟩

theorem suppress_foldl_none (userID frameID : String)
    (entries : List (String × JoinData)) (fs : FramesData)
    (hJ : alookup fs.Join frameID = none) (hI : alookup fs.Invite frameID = none) :
    alookup (entries.foldl (suppressStep userID) fs).Join frameID = none ∧
    alookup (entries.foldl (suppressStep userID) fs).Invite frameID = none := by
  induction entries generalizing fs with
  | nil => exact ⟨hJ, hI⟩
  | cons hd tl ih =>
    rw [List.foldl_cons]
    obtain ⟨h1, h2⟩ := suppressStep_none userID frameID fs hd hJ hI
    exact ih _ h1 h2

theorem suppressStep_inv (userID frameID : String) (fs : FramesData)
    (entry : String × JoinData)
    (hinv : alookup fs.Join frameID = none → alookup fs.Invite frameID = none) :
    alookup (suppressStep userID fs entry).Join frameID = none →
    alookup (suppressStep userID fs entry).Invite frameID = none := by
  unfold suppressStep
  split
  · split
    · exact hinv
    · intro h2
      show alookup (aerase fs.Invite entry.1) frameID = none
      rw [alookup_aerase]
      have h3 : alookup (aerase fs.Join entry.1) frameID = none := h2
      rw [alookup_aerase] at h3
      by_cases h : entry.1 = frameID
      · simp [h]
      · simp [h] at h3 ⊢
        exact hinv h3
  · exact hinv

theorem suppress_foldl_removes (userID frameID : String) (fd : JoinData)
    (entries : List (String × JoinData)) (fs : FramesData)
    (hmem : (frameID, fd) ∈ entries)
    (hchk : checkJoinTimeline userID fd.Timeline.Events = true)
    (hinv : alookup fs.Join frameID = none → alookup fs.Invite frameID = none) :
    alookup (entries.foldl (suppressStep userID) fs).Join frameID = none ∧
    alookup (entries.foldl (suppressStep userID) fs).Invite frameID = none := by
  induction entries generalizing fs with
  | nil => cases hmem
  | cons hd tl ih =>
    rw [List.foldl_cons]
    rcases List.mem_cons.1 hmem with heq | hmem2
    · cases hJ : alookup fs.Join frameID with
      | none =>
        obtain ⟨h1, h2⟩ := suppressStep_none userID frameID fs hd hJ (hinv hJ)
        exact suppress_foldl_none userID frameID tl _ h1 h2
      | some fdx =>
        have hstep : suppressStep userID fs hd =
            { fs with Join := aerase fs.Join frameID,
                      Invite := aerase fs.Invite frameID } := by
          rw [← heq]
          unfold suppressStep
          simp [hchk, hJ]
        rw [hstep]
        have h1 : alookup (aerase fs.Join frameID) frameID = none := by
          rw [alookup_aerase]; simp
        have h2 : alookup (aerase fs.Invite frameID) frameID = none := by
          rw [alookup_aerase]; simp
        exact suppress_foldl_none userID frameID tl _ h1 h2
    · exact ih _ hmem2 (suppressStep_inv userID frameID fs hd hinv)

/-- Processing that never touches `frameID`: the stored frame under that
id is unchanged and every newly notified event carries some other frame
id. -/
def PreservesFrame (frameID : String) (st st1 : ProcState) : Prop :=
  st1.store.LoadFrame frameID = st.store.LoadFrame frameID ∧
  ∀ e ∈ st1.notified, e ∈ st.notified ∨ e.FrameID ≠ frameID

theorem preservesFrame_refl (frameID : String) (st : ProcState) :
    PreservesFrame frameID st st :=
  ⟨rfl, fun _ he => Or.inl he⟩

theorem preservesFrame_trans {frameID : String} {st1 st2 st3 : ProcState}
    (h12 : PreservesFrame frameID st1 st2) (h23 : PreservesFrame frameID st2 st3) :
    PreservesFrame frameID st1 st3 := by
  refine ⟨h23.1.trans h12.1, fun e he => ?_⟩
  rcases h23.2 e he with h | h
  · exact h12.2 e h
  · exact Or.inr h

theorem preservesFrame_notify {frameID : String} (st : ProcState) (event : Event)
    (hne : event.FrameID ≠ frameID) :
    PreservesFrame frameID st { st with notified := st.notified ++ [event] } := by
  refine ⟨rfl, fun e he => ?_⟩
  rcases List.mem_append.1 he with h | h
  · exact Or.inl h
  · simp at h
    subst h
    exact Or.inr hne

theorem syncFrame_preserves (frameID k : String) (fr : Frame) (st : ProcState)
    (hne : k ≠ frameID) : PreservesFrame frameID st (syncFrame st k fr) := by
  refine ⟨?_, fun _ he => Or.inl he⟩
  show alookup (ainsert st.store.Frames k fr) frameID = alookup st.store.Frames frameID
  exact alookup_ainsert_ne _ _ _ _ hne

theorem getOrCreateFrame_preserves (frameID k : String) (st : ProcState)
    (hne : k ≠ frameID) :
    PreservesFrame frameID st (DefaultSyncer.getOrCreateFrame k st).2 := by
  unfold DefaultSyncer.getOrCreateFrame
  cases h : st.store.LoadFrame k with
  | some fr => exact ⟨rfl, fun _ he => Or.inl he⟩
  | none =>
    refine ⟨?_, fun _ he => Or.inl he⟩
    show alookup (ainsert st.store.Frames (NewFrame k).ID (NewFrame k)) frameID =
      alookup st.store.Frames frameID
    exact alookup_ainsert_ne _ _ _ _ hne

theorem runListeners_preserves (frameID : String) (fns : List OnEventListener)
    (event : Event) (st : ProcState) (hne : event.FrameID ≠ frameID) :
    PreservesFrame frameID st (runListeners fns event st).state := by
  induction fns generalizing st with
  | nil => exact preservesFrame_refl _ _
  | cons fn rest ih =>
    unfold runListeners
    cases fn event with
    | some msg => exact preservesFrame_notify st event hne
    | none =>
      exact preservesFrame_trans (preservesFrame_notify st event hne) (ih _)

theorem notifyListeners_preserves (frameID : String) (s : DefaultSyncer)
    (event : Event) (st : ProcState) (hne : event.FrameID ≠ frameID) :
    PreservesFrame frameID st ((s.notifyListeners event st).state) := by
  unfold DefaultSyncer.notifyListeners
  cases alookup s.listeners event.«Type» with
  | none => exact preservesFrame_refl _ _
  | some fns => exact runListeners_preserves frameID fns event st hne

theorem processStateEvents_preserves (frameID k : String) (s : DefaultSyncer)
    (events : List Event) (frame : Frame) (st : ProcState) (hne : k ≠ frameID) :
    PreservesFrame frameID st (processStateEvents s k events frame st).state := by
  induction events generalizing frame st with
  | nil => exact preservesFrame_refl _ _
  | cons ev rest ih =>
    simp only [processStateEvents]
    have hevne : ({ ev with FrameID := k } : Event).FrameID ≠ frameID := hne
    split
    · exact syncFrame_preserves frameID k _ st hne
    · next f1 heq =>
      have h1 := syncFrame_preserves frameID k f1 st hne
      have h2 := notifyListeners_preserves frameID s { ev with FrameID := k }
        (syncFrame st k f1) hevne
      split
      · next st2 m hn =>
        rw [hn] at h2
        exact preservesFrame_trans h1 h2
      · next st2 hn =>
        rw [hn] at h2
        exact preservesFrame_trans h1 (preservesFrame_trans h2 (ih f1 st2))

theorem notifyEach_preserves (frameID k : String) (s : DefaultSyncer)
    (events : List Event) (st : ProcState) (hne : k ≠ frameID) :
    PreservesFrame frameID st (notifyEach s k events st).state := by
  induction events generalizing st with
  | nil => exact preservesFrame_refl _ _
  | cons ev rest ih =>
    simp only [notifyEach]
    have hevne : ({ ev with FrameID := k } : Event).FrameID ≠ frameID := hne
    have h2 := notifyListeners_preserves frameID s { ev with FrameID := k } st hevne
    split
    · next st2 m hn =>
      rw [hn] at h2
      exact h2
    · next st2 hn =>
      rw [hn] at h2
      exact preservesFrame_trans h2 (ih st2)

theorem processLeaveEvents_preserves (frameID k : String) (s : DefaultSyncer)
    (events : List Event) (frame : Frame) (st : ProcState) (hne : k ≠ frameID) :
    PreservesFrame frameID st (processLeaveEvents s k events frame st).state := by
  induction events generalizing frame st with
  | nil => exact preservesFrame_refl _ _
  | cons ev rest ih =>
    simp only [processLeaveEvents]
    by_cases hsk : ev.StateKey = none
    · simp only [hsk, ne_eq, not_true_eq_false, if_false]
      exact ih frame st
    · simp only [ne_eq, hsk, not_false_eq_true, if_true]
      have hevne : ({ ev with FrameID := k } : Event).FrameID ≠ frameID := hne
      split
      · exact syncFrame_preserves frameID k _ st hne
      · next f1 heq =>
        have h1 := syncFrame_preserves frameID k f1 st hne
        have h2 := notifyListeners_preserves frameID s { ev with FrameID := k }
          (syncFrame st k f1) hevne
        split
        · next st2 m hn =>
          rw [hn] at h2
          exact preservesFrame_trans h1 h2
        · next st2 hn =>
          rw [hn] at h2
          exact preservesFrame_trans h1 (preservesFrame_trans h2 (ih f1 st2))

theorem processJoinFrame_preserves (frameID k : String) (s : DefaultSyncer)
    (fd : JoinData) (st : ProcState) (hne : k ≠ frameID) :
    PreservesFrame frameID st (processJoinFrame s k fd st).state := by
  simp only [processJoinFrame]
  have hg := getOrCreateFrame_preserves frameID k st hne
  have hA := processStateEvents_preserves frameID k s fd.State.Events
    (DefaultSyncer.getOrCreateFrame k st).1 (DefaultSyncer.getOrCreateFrame k st).2 hne
  split
  · next st1 m h1 =>
    rw [h1] at hA
    exact preservesFrame_trans hg hA
  · next st1 h1 =>
    rw [h1] at hA
    have hB := notifyEach_preserves frameID k s fd.Timeline.Events st1 hne
    split
    · next st2 m h2 =>
      rw [h2] at hB
      exact preservesFrame_trans hg (preservesFrame_trans hA hB)
    · next st2 h2 =>
      rw [h2] at hB
      have hC := notifyEach_preserves frameID k s fd.Ephemeral.Events st2 hne
      exact preservesFrame_trans hg (preservesFrame_trans hA
        (preservesFrame_trans hB hC))

theorem processInviteFrame_preserves (frameID k : String) (s : DefaultSyncer)
    (fd : InviteData) (st : ProcState) (hne : k ≠ frameID) :
    PreservesFrame frameID st (processInviteFrame s k fd st).state := by
  simp only [processInviteFrame]
  exact preservesFrame_trans (getOrCreateFrame_preserves frameID k st hne)
    (processStateEvents_preserves frameID k s fd.State.Events
      (DefaultSyncer.getOrCreateFrame k st).1 (DefaultSyncer.getOrCreateFrame k st).2 hne)

theorem processLeaveFrame_preserves (frameID k : String) (s : DefaultSyncer)
    (fd : LeaveData) (st : ProcState) (hne : k ≠ frameID) :
    PreservesFrame frameID st (processLeaveFrame s k fd st).state := by
  simp only [processLeaveFrame]
  exact preservesFrame_trans (getOrCreateFrame_preserves frameID k st hne)
    (processLeaveEvents_preserves frameID k s fd.Timeline.Events
      (DefaultSyncer.getOrCreateFrame k st).1 (DefaultSyncer.getOrCreateFrame k st).2 hne)

theorem processJoinFrames_preserves (frameID : String) (s : DefaultSyncer)
    (entries : List (String × JoinData)) (st : ProcState)
    (hnm : ∀ fd : JoinData, (frameID, fd) ∉ entries) :
    PreservesFrame frameID st (processJoinFrames s entries st).state := by
  induction entries generalizing st with
  | nil => exact preservesFrame_refl _ _
  | cons hd tl ih =>
    obtain ⟨k, fd⟩ := hd
    have hne : k ≠ frameID := by
      intro h
      subst h
      exact hnm fd (List.mem_cons_self _ _)
    have hnm2 : ∀ fd2 : JoinData, (frameID, fd2) ∉ tl := by
      intro fd2 h
      exact hnm fd2 (List.mem_cons_of_mem _ h)
    simp only [processJoinFrames]
    have hA := processJoinFrame_preserves frameID k s fd st hne
    split
    · next st1 m h1 =>
      rw [h1] at hA
      exact hA
    · next st1 h1 =>
      rw [h1] at hA
      exact preservesFrame_trans hA (ih st1 hnm2)

theorem processInviteFrames_preserves (frameID : String) (s : DefaultSyncer)
    (entries : List (String × InviteData)) (st : ProcState)
    (hnm : ∀ fd : InviteData, (frameID, fd) ∉ entries) :
    PreservesFrame frameID st (processInviteFrames s entries st).state := by
  induction entries generalizing st with
  | nil => exact preservesFrame_refl _ _
  | cons hd tl ih =>
    obtain ⟨k, fd⟩ := hd
    have hne : k ≠ frameID := by
      intro h
      subst h
      exact hnm fd (List.mem_cons_self _ _)
    have hnm2 : ∀ fd2 : InviteData, (frameID, fd2) ∉ tl := by
      intro fd2 h
      exact hnm fd2 (List.mem_cons_of_mem _ h)
    simp only [processInviteFrames]
    have hA := processInviteFrame_preserves frameID k s fd st hne
    split
    · next st1 m h1 =>
      rw [h1] at hA
      exact hA
    · next st1 h1 =>
      rw [h1] at hA
      exact preservesFrame_trans hA (ih st1 hnm2)

theorem processLeaveFrames_preserves (frameID : String) (s : DefaultSyncer)
    (entries : List (String × LeaveData)) (st : ProcState)
    (hnm : ∀ fd : LeaveData, (frameID, fd) ∉ entries) :
    PreservesFrame frameID st (processLeaveFrames s entries st).state := by
  induction entries generalizing st with
  | nil => exact preservesFrame_refl _ _
  | cons hd tl ih =>
    obtain ⟨k, fd⟩ := hd
    have hne : k ≠ frameID := by
      intro h
      subst h
      exact hnm fd (List.mem_cons_self _ _)
    have hnm2 : ∀ fd2 : LeaveData, (frameID, fd2) ∉ tl := by
      intro fd2 h
      exact hnm fd2 (List.mem_cons_of_mem _ h)
    simp only [processLeaveFrames]
    have hA := processLeaveFrame_preserves frameID k s fd st hne
    split
    · next st1 m h1 =>
      rw [h1] at hA
      exact hA
    · next st1 h1 =>
      rw [h1] at hA
      exact preservesFrame_trans hA (ih st1 hnm2)

theorem mainPass_preserves (frameID : String) (s : DefaultSyncer) (res : RespSync)
    (st : ProcState)
    (hJ : alookup res.Frames.Join frameID = none)
    (hI : alookup res.Frames.Invite frameID = none)
    (hL : alookup res.Frames.Leave frameID = none) :
    PreservesFrame frameID st (mainPass s res st).state := by
  simp only [mainPass]
  have hA := processJoinFrames_preserves frameID s res.Frames.Join st
    (not_mem_of_alookup_none hJ)
  split
  · next st1 m h1 =>
    rw [h1] at hA
    exact hA
  · next st1 h1 =>
    rw [h1] at hA
    have hB := processInviteFrames_preserves frameID s res.Frames.Invite st1
      (not_mem_of_alookup_none hI)
    split
    · next st2 m h2 =>
      rw [h2] at hB
      exact preservesFrame_trans hA hB
    · next st2 h2 =>
      rw [h2] at hB
      have hC := processLeaveFrames_preserves frameID s res.Frames.Leave st2
        (not_mem_of_alookup_none hL)
      exact preservesFrame_trans hA (preservesFrame_trans hB hC)

/-- A membership event for the syncing user with the spec's membership
string `"joined"`. -/
def joinedMemberEv : Event :=
  { «Type» := "m.frame.member", StateKey := some "@bot:x",
    Content := [("membership", .str "joined")] }

/-- A membership event for the syncing user with the code's membership
string `"join"`. -/
def joinMemberEv : Event :=
  { «Type» := "m.frame.member", StateKey := some "@bot:x",
    Content := [("membership", .str "join")] }

/-- A syncer subscribed (without panicking) to member events, to observe
dispatches. -/
def memberSyncer : DefaultSyncer :=
  { UserID := "@bot:x", listeners := [("m.frame.member", [fun _ => none])] }

/-- A batch whose joined bucket holds one frame whose most recent
timeline event is `joinedMemberEv` (membership `"joined"`). -/
def joinedResp : RespSync :=
  { NextBatch := "nb2",
    Frames := { Join := [("!f:x", { Timeline := { Events := [joinedMemberEv] } })] } }

/-- A batch whose joined bucket holds one frame whose most recent
timeline event is `joinMemberEv` (membership `"join"`), an earlier
message before it, plus an invite entry for the same frame. -/
def joinRaceResp : RespSync :=
  { NextBatch := "nb2",
    Frames := { Join := [("!f:x", { Timeline := { Events :=
                  [{ «Type» := "m.frame.message" }, joinMemberEv] } })],
                Invite := [("!f:x", {})] } }

/-- A membership event for the syncing user with membership `"leave"`
and a non-null state-key, as a left bucket's timeline carries it. -/
def leaveMemberEv : Event :=
  { «Type» := "m.frame.member", StateKey := some "@bot:x",
    Content := [("membership", .str "leave")] }

/-- A batch in which the same frame sits in all three buckets: its joined
timeline ends in `joinMemberEv` (membership `"join"`, so suppression
fires), and its left timeline carries the state-keyed `leaveMemberEv`. -/
def leaveOverlapResp : RespSync :=
  { NextBatch := "nb2",
    Frames := { Leave := [("!f:x", { Timeline := { Events := [leaveMemberEv] } })],
                Join := [("!f:x", { Timeline := { Events := [joinMemberEv] } })],
                Invite := [("!f:x", {})] } }

/-- C2 counterexample, in two parts.

First input (`joinedResp`): the claim keys the suppression on membership
value `"joined"`, but the code compares against `"join"`.  With the most
recent membership event carrying `"joined"`, the frame is NOT removed
from the joined bucket and a listener DOES fire for its event — refuting
the claim as stated.

Second input (`leaveOverlapResp`): substituting `"join"` alone is still
not enough.  When the suppressed frame also appears in the left bucket,
suppression removes it from the joined and invited buckets, yet the
left-bucket pass — which suppression never touches — still applies a
state update for that frame and fires a listener for one of its events.
This forces the amendment's proviso that the frame not also appear in
the left bucket. -/
theorem suppression_ignores_joined_membership :
    (findMostRecentMember "@bot:x"
        ([joinedMemberEv] : List Event).reverse = some joinedMemberEv ∧
      alookup joinedMemberEv.Content "membership" = some (.str "joined") ∧
      alookup (memberSyncer.shouldProcessResponse joinedResp "s1").2.Frames.Join
        "!f:x" = some { Timeline := { Events := [joinedMemberEv] } } ∧
      (memberSyncer.ProcessResponse joinedResp "s1" {}).notified =
        [{ joinedMemberEv with FrameID := "!f:x" }]) ∧
    (findMostRecentMember "@bot:x"
        ([joinMemberEv] : List Event).reverse = some joinMemberEv ∧
      alookup joinMemberEv.Content "membership" = some (.str "join") ∧
      alookup (memberSyncer.shouldProcessResponse leaveOverlapResp "s1").2.Frames.Join
        "!f:x" = none ∧
      alookup (memberSyncer.shouldProcessResponse leaveOverlapResp "s1").2.Frames.Invite
        "!f:x" = none ∧
      (memberSyncer.ProcessResponse leaveOverlapResp "s1" {}).store.LoadFrame "!f:x" =
        some { ID := "!f:x",
               State := [("m.frame.member",
                 [("@bot:x", { leaveMemberEv with FrameID := "!f:x" })])] } ∧
      (memberSyncer.ProcessResponse leaveOverlapResp "s1" {}).notified =
        [{ leaveMemberEv with FrameID := "!f:x" }]) := by
  exact ⟨⟨rfl, rfl, rfl, rfl⟩, ⟨rfl, rfl, rfl, rfl, rfl, rfl⟩⟩

/-- C2 as amended, with exactly the two changes the counterexample's two
parts force: membership value `"joined"` becomes `"join"`, and the frame
is required not to appear in the batch's left bucket (whose processing
is independent of the suppression).  Then: for every batch processed
with a non-empty since position and every joined-bucket frame whose most
recent membership-state timeline event for the syncing user has
membership value `"join"`, the frame is removed from both the joined and
invited buckets before any dispatch, no state update is applied for it
(its stored frame is not even created), and no listener fires for any of
its events. -/
theorem join_race_suppression (s : DefaultSyncer) (res : RespSync)
    (since frameID : String) (fd : JoinData) (e : Event) (store : InMemoryStore)
    (hsince : since ≠ "")
    (hmem : alookup res.Frames.Join frameID = some fd)
    (hfind : findMostRecentMember s.UserID fd.Timeline.Events.reverse = some e)
    (hjoin : alookup e.Content "membership" = some (.str "join"))
    (hleave : alookup res.Frames.Leave frameID = none) :
    alookup (s.shouldProcessResponse res since).2.Frames.Join frameID = none ∧
    alookup (s.shouldProcessResponse res since).2.Frames.Invite frameID = none ∧
    (s.ProcessResponse res since store).store.LoadFrame frameID =
      store.LoadFrame frameID ∧
    ∀ ev ∈ (s.ProcessResponse res since store).notified, ev.FrameID ≠ frameID := by
  have hchk : checkJoinTimeline s.UserID fd.Timeline.Events = true :=
    scanForJoin_of_find _ _ _ hfind hjoin
  have hsp : s.shouldProcessResponse res since =
      (true, { res with
        Frames := res.Frames.Join.foldl (suppressStep s.UserID) res.Frames }) := by
    unfold DefaultSyncer.shouldProcessResponse
    rw [if_neg hsince]
  have hinv : alookup res.Frames.Join frameID = none →
      alookup res.Frames.Invite frameID = none := by
    intro h
    rw [hmem] at h
    exact Option.noConfusion h
  have hrm := suppress_foldl_removes s.UserID frameID fd res.Frames.Join res.Frames
    (alookup_mem hmem) hchk hinv
  have hJ2 : alookup (s.shouldProcessResponse res since).2.Frames.Join frameID = none := by
    rw [hsp]
    exact hrm.1
  have hI2 : alookup (s.shouldProcessResponse res since).2.Frames.Invite frameID = none := by
    rw [hsp]
    exact hrm.2
  have hL2 : alookup (s.shouldProcessResponse res since).2.Frames.Leave frameID = none := by
    rw [hsp]
    show alookup (res.Frames.Join.foldl (suppressStep s.UserID) res.Frames).Leave
      frameID = none
    rw [suppress_foldl_leave]
    exact hleave
  have h1 : (s.shouldProcessResponse res since).1 = true := by
    rw [hsp]
  have hmp := mainPass_preserves frameID s (s.shouldProcessResponse res since).2
    { store := store } hJ2 hI2 hL2
  refine ⟨hJ2, hI2, ?_, ?_⟩
  · simp only [DefaultSyncer.ProcessResponse, h1, if_true]
    split
    · next stx hm =>
      rw [hm] at hmp
      exact hmp.1
    · next stx m hm =>
      rw [hm] at hmp
      exact hmp.1
  · simp only [DefaultSyncer.ProcessResponse, h1, if_true]
    split
    · next stx hm =>
      rw [hm] at hmp
      intro ev hev
      rcases hmp.2 ev hev with h | h
      · exact absurd h (List.not_mem_nil _)
      · exact h
    · next stx m hm =>
      rw [hm] at hmp
      intro ev hev
      rcases hmp.2 ev hev with h | h
      · exact absurd h (List.not_mem_nil _)
      · exact h

theorem join_race_suppression_witness :
    "s1" ≠ "" ∧
    alookup joinRaceResp.Frames.Join "!f:x" =
      some { Timeline := { Events := [{ «Type» := "m.frame.message" }, joinMemberEv] } } ∧
    alookup (memberSyncer.shouldProcessResponse joinRaceResp "s1").2.Frames.Join
      "!f:x" = none ∧
    alookup (memberSyncer.shouldProcessResponse joinRaceResp "s1").2.Frames.Invite
      "!f:x" = none ∧
    (memberSyncer.ProcessResponse joinRaceResp "s1" {}).store.LoadFrame "!f:x" =
      InMemoryStore.LoadFrame {} "!f:x" ∧
    (∀ ev ∈ (memberSyncer.ProcessResponse joinRaceResp "s1" {}).notified,
      ev.FrameID ≠ "!f:x") :=
  have h := join_race_suppression memberSyncer joinRaceResp "s1" "!f:x"
    { Timeline := { Events := [{ «Type» := "m.frame.message" }, joinMemberEv] } }
    joinMemberEv {} (by decide) rfl rfl rfl rfl
  ⟨by decide, rfl, h.1, h.2.1, h.2.2.1, h.2.2.2⟩

end xcore
